import Mathlib

/-!
Shallow embedding of the configuration resolution and validation pipeline of
the agent repository (package `pkg/config`, file `config.go`).

The pipeline's own code (`DefaultConfig`, `Config`, `Config.UnmarshalYAML`,
`Config.ApplyDefaults`, `Config.RegisterFlags`, `LoadBytes`, `getenv`,
`load`) is translated from the source.  External collaborators that the
source file calls but whose code is not part of the repository snapshot
(the YAML strict decoder `yaml.UnmarshalStrict`, the `envsubst.Eval`
expansion engine, the Go `flag` package, and the subsystem packages
`metrics`, `logs`, `tempo`, `integrations`) are modelled from the spec at
their interfaces, as documented on each definition.

Machine integers are modelled as `Nat` (no arithmetic overflows occur in
this code), Go `nil`-able pointers as `Option`, Go error returns as
`Except String`, and the ambient process environment as an explicit
lookup function `String → String`.
-/

namespace Agent

/-- Modelled from the spec: TLS settings of the embedded HTTP server
(`server.Config.HTTPTLSConfig` from the external weaveworks server
package).  Only the certificate/key paths read by
`Config.ApplyDefaults` are modelled. -/
structure TLSConfig where
  tlsCertPath : String
  tlsKeyPath : String
deriving DecidableEq, Repr

/-- Modelled from the spec: the agent-wide server section
(`server.Config`, external package).  Only the fields read by
`Config.ApplyDefaults` and `Config.RegisterFlags` are modelled. -/
structure ServerConfig where
  httpListenAddress : String
  httpListenPort : Nat
  grpcListenPort : Nat
  httpTLSConfig : TLSConfig
  metricsNamespace : String
  registerInstrumentation : Bool
deriving DecidableEq, Repr

/-- Modelled from the spec: the Prometheus-level global configuration
(`prometheus/config.GlobalConfig`), a representative subset: scrape
intervals/timeouts as duration strings plus the external label set. -/
structure PromGlobalConfig where
  scrapeInterval : String
  scrapeTimeout : String
  evaluationInterval : String
  externalLabels : List (String × String)
deriving DecidableEq, Repr

/-- Modelled from the spec: the metrics subsystem's global section
(`instance.GlobalConfig`): the Prometheus global block plus the global
remote-write destination list (destinations modelled by their URL). -/
structure GlobalConfig where
  prometheus : PromGlobalConfig
  remoteWrite : List String
deriving DecidableEq, Repr

/-- Modelled from the spec: the lifecycler settings of the metrics
scraping service; only fields mentioned by `Config.ApplyDefaults` and
the flag-default tests are modelled. -/
structure Lifecycler where
  listenPort : Nat
  numTokens : Nat
  heartbeatPeriod : String
  infNames : List String
deriving DecidableEq, Repr

/-- Modelled from the spec: the scraping-service block of the metrics
subsystem (`metrics.Config.ServiceConfig`). -/
structure ServiceConfig where
  lifecycler : Lifecycler
deriving DecidableEq, Repr

/-- Modelled from the spec: the metrics subsystem section
(`metrics.Config`), restricted to the fields exercised by the pipeline:
the WAL directory, the global section, and the scraping-service block. -/
structure MetricsConfig where
  walDirectory : String
  global : GlobalConfig
  serviceConfig : ServiceConfig
deriving DecidableEq, Repr

/-- Modelled from the spec: the integrations subsystem section
(`integrations.ManagerConfig`), restricted to the fields assigned by
`Config.ApplyDefaults`: the fallback remote-write list, the listen
host/port cascaded from the server, the TLS flag, and the cascaded
Prometheus global block. -/
structure ManagerConfig where
  prometheusRemoteWrite : List String
  listenPort : Nat
  listenHost : String
  serverUsingTLS : Bool
  prometheusGlobalConfig : PromGlobalConfig
deriving DecidableEq, Repr

/-- Modelled from the spec: one named instance of the log-shipping
subsystem (`logs.InstanceConfig`); only the name is needed by the
pipeline (migration preserves content, validation resolves names). -/
structure LogsInstance where
  name : String
deriving DecidableEq, Repr

/-- Modelled from the spec: the log-shipping subsystem section
(`logs.Config`): a list of named instances. -/
structure LogsConfig where
  configs : List LogsInstance
deriving DecidableEq, Repr

/-- Modelled from the spec: the automatic-logging feature block of one
trace-processing instance; `backend` selects the logging backend and
`logsInstanceName` names the logs instance it uses. -/
structure AutomaticLoggingConfig where
  backend : String
  logsInstanceName : String
deriving DecidableEq, Repr

/-- Modelled from the spec: one named instance of the trace-processing
subsystem (`tempo.InstanceConfig`). -/
structure TempoInstance where
  name : String
  automaticLogging : Option AutomaticLoggingConfig
deriving DecidableEq, Repr

/-- Modelled from the spec: the trace-processing subsystem section
(`tempo.Config`): a list of named instances. -/
structure TempoConfig where
  configs : List TempoInstance
deriving DecidableEq, Repr

/-- Config contains underlying configurations for the agent
(struct `Config` of `pkg/config`).  `Logs` and `Loki` are nil-able
pointers in Go, hence `Option` here; `UsedDeprecatedLoki`,
`ReloadAddress` and `ReloadPort` carry the yaml tag `-` and are not
settable from the document. -/
structure Config where
  server : ServerConfig
  prometheus : MetricsConfig
  integrations : ManagerConfig
  tempo : TempoConfig
  logs : Option LogsConfig
  loki : Option LogsConfig
  usedDeprecatedLoki : Bool
  reloadAddress : String
  reloadPort : Nat
deriving DecidableEq, Repr

/-- Modelled from the spec: `metrics.DefaultConfig` (external to the
snapshot); Prometheus-style global defaults, empty WAL directory, zero
lifecycler (lifecycler values are flag-registration defaults, applied by
`Config.registerFlags`). -/
def metricsDefaultConfig : MetricsConfig :=
  { walDirectory := ""
    global :=
      { prometheus :=
          { scrapeInterval := "1m"
            scrapeTimeout := "10s"
            evaluationInterval := "1m"
            externalLabels := [] }
        remoteWrite := [] }
    serviceConfig :=
      { lifecycler :=
          { listenPort := 0, numTokens := 0, heartbeatPeriod := "", infNames := [] } } }

/-- Modelled from the spec: `integrations.DefaultManagerConfig`
(external to the snapshot); everything empty/zero. -/
def integrationsDefaultManagerConfig : ManagerConfig :=
  { prometheusRemoteWrite := []
    listenPort := 0
    listenHost := ""
    serverUsingTLS := false
    prometheusGlobalConfig :=
      { scrapeInterval := "", scrapeTimeout := "", evaluationInterval := "", externalLabels := [] } }

/-- Zero value of the server section (Go zero struct). -/
def serverZeroConfig : ServerConfig :=
  { httpListenAddress := ""
    httpListenPort := 0
    grpcListenPort := 0
    httpTLSConfig := { tlsCertPath := "", tlsKeyPath := "" }
    metricsNamespace := ""
    registerInstrumentation := false }

/-- DefaultConfig holds default settings for all the subsystems
(variable `DefaultConfig` of `pkg/config`): only the Prometheus and
Integrations sections carry non-zero defaults, all other fields are Go
zero values. -/
def DefaultConfig : Config :=
  { server := serverZeroConfig
    prometheus := metricsDefaultConfig
    integrations := integrationsDefaultManagerConfig
    tempo := { configs := [] }
    logs := none
    loki := none
    usedDeprecatedLoki := false
    reloadAddress := ""
    reloadPort := 0 }

/-- Flag-registration defaults of the lifecycler, modelled from the
spec (values the metrics subsystem registers its ring flags with). -/
def lifecyclerFlagDefaults : Lifecycler :=
  { listenPort := 0, numTokens := 128, heartbeatPeriod := "15s", infNames := ["eth0", "en0"] }

/-- RegisterFlags registers flags in underlying configs
(`Config.RegisterFlags` of `pkg/config`).  In Go, registering a flag
with `flag.StringVar`/`IntVar` immediately writes the flag's default
value into the bound field, and the method body also assigns
`MetricsNamespace`/`RegisterInstrumentation` directly; this function
captures that write of registration-time defaults.  The weaveworks
server flag defaults and the metrics subsystem flag defaults are
modelled from the spec. -/
def Config.registerFlags (c : Config) : Config :=
  { c with
    server :=
      { c.server with
        metricsNamespace := "agent"
        registerInstrumentation := true
        httpListenAddress := ""
        httpListenPort := 80
        grpcListenPort := 9095 }
    prometheus :=
      { c.prometheus with
        serviceConfig := { lifecycler := lifecyclerFlagDefaults } }
    reloadAddress := "127.0.0.1"
    reloadPort := 0 }

/-- The working tree right after seeding defaults and registering flags:
this is both the starting point of `load` and the tree that
`Config.UnmarshalYAML` resets to (`*c = DefaultConfig` followed by
`util.DefaultConfigFromFlags(c)`). -/
def seededDefaults : Config :=
  Config.registerFlags DefaultConfig

/-! ## Environment substitution filter -/

/-- A fragment of the raw document text: either a literal run of
characters containing no placeholder, or one placeholder token
written in the raw text as a dollar sign followed by the name in
braces. -/
inductive Piece where
  | lit (s : String)
  | placeholder (name : String)
deriving DecidableEq, Repr

/-- Renders a piece verbatim, with no substitution applied: a
placeholder renders back to its raw spelling with the dollar sign and
the braces. -/
def renderRawPiece : Piece → String
  | .lit s => s
  | .placeholder n => "$\x7b" ++ n ++ "\x7d"

/-- Renders a whole raw text verbatim. -/
def renderRaw : List Piece → String
  | [] => ""
  | p :: rest => renderRawPiece p ++ renderRaw rest

/-- Modelled from the spec: the external expansion engine
`envsubst.Eval` replaces every placeholder occurrence with the value
returned by the lookup function, leaving literal runs unchanged; raw
text is modelled as its alternation of literal runs and placeholders. -/
def envsubstEval : List Piece → (String → String) → String
  | [], _ => ""
  | .lit s :: rest, lookup => s ++ envsubstEval rest lookup
  | .placeholder n :: rest, lookup => lookup n ++ envsubstEval rest lookup

/-- Whether every character of the name is a decimal digit (the loop of
`getenv` over the name's runes; the empty name vacuously counts as
numeric, as in the source). -/
def isNumericName (name : String) : Bool :=
  name.data.all (fun c => c.isDigit)

/-- getenv is a wrapper around os.Getenv that ignores patterns that are
numeric regex capture groups (ie a digit-only placeholder): for such
names it adds the dollar-brace wrapping back in, since envsubst removes
it; the ambient environment is the explicit lookup `env`. -/
def getenv (env : String → String) (name : String) : String :=
  if isNumericName name then "$\x7b" ++ name ++ "\x7d" else env name

/-- Renders one scalar of the document: with expansion enabled the
substitution filter runs over it with `getenv`, otherwise it reads
verbatim. -/
def renderScalar (expand : Bool) (env : String → String) (ps : List Piece) : String :=
  if expand then envsubstEval ps (getenv env) else renderRaw ps

/-! ## Strict structural decoder

Modelled from the spec: the strict decoder (`yaml.UnmarshalStrict` plus
the yaml struct tags of the configuration structures, the decoder
itself being an external library) parses the document into the tree,
starting from the already-seeded defaults, rejecting duplicate keys at
any nesting level, keys not recognized by the schema of the structure
at that position, and type mismatches.  A structurally well-formed
document is a tree of scalars, mappings and sequences whose scalars are
raw text (placeholder alternations); raw bytes that do not parse into
such a tree at all are the `malformed` case. -/

/-- One node of a structurally well-formed document: a raw scalar, a
mapping (whose entry list may contain duplicate keys, which the strict
decoder then rejects), or a sequence. -/
inductive DocVal where
  | scalar (pieces : List Piece)
  | map (entries : List (String × DocVal))
  | seq (items : List DocVal)

/-- The raw bytes of a document: either they parse into a document tree
or they are structurally malformed with a parser message. -/
inductive RawDoc where
  | malformed (msg : String)
  | node (v : DocVal)

/-- First value bound to a key in an entry list (with duplicate keys
rejected up front, the unique value of the key). -/
def lookupKey (k : String) : List (String × DocVal) → Option DocVal
  | [] => none
  | kv :: rest => if kv.1 == k then some kv.2 else lookupKey k rest

/-- Whether the keys of an entry list are pairwise distinct. -/
def nodupKeys : List (String × DocVal) → Bool
  | [] => true
  | kv :: rest => !(rest.any (fun kv2 => kv2.1 == kv.1)) && nodupKeys rest

/-- Whether every key of an entry list is recognized by the schema. -/
def keysAmong (allowed : List String) (l : List (String × DocVal)) : Bool :=
  l.all (fun kv => allowed.contains kv.1)

/-- Duplicate-key check of one mapping level. -/
def checkDup (l : List (String × DocVal)) : Except String Unit :=
  if nodupKeys l then .ok () else .error "yaml: field already set in type config"

/-- Duplicate-key and unknown-key check of one mapping level against
the schema's recognized keys. -/
def checkKeys (allowed : List String) (l : List (String × DocVal)) : Except String Unit :=
  if nodupKeys l then
    if keysAmong allowed l then .ok ()
    else .error "yaml: field not found in type config"
  else .error "yaml: field already set in type config"

/-- Decodes an optional scalar field: absent keys keep the current
value, a present key must be a scalar and overwrites it. -/
def optScalar (render : List Piece → String) (l : List (String × DocVal)) (k : String)
    (cur : String) : Except String String :=
  match lookupKey k l with
  | none => .ok cur
  | some (.scalar ps) => .ok (render ps)
  | some _ => .error "yaml: cannot unmarshal into string"

/-- Decodes an optional scalar field holding a non-negative integer. -/
def optNatScalar (render : List Piece → String) (l : List (String × DocVal)) (k : String)
    (cur : Nat) : Except String Nat :=
  match lookupKey k l with
  | none => .ok cur
  | some (.scalar ps) =>
    match (render ps).toNat? with
    | some n => .ok n
    | none => .error "yaml: cannot unmarshal into int"
  | some _ => .error "yaml: cannot unmarshal into int"

/-- Decodes an optional sub-structure field: absent keys keep the
current value, a present key is decoded into it. -/
def optField {α : Type} (l : List (String × DocVal)) (k : String)
    (dec : DocVal → α → Except String α) (cur : α) : Except String α :=
  match lookupKey k l with
  | none => .ok cur
  | some v => dec v cur

/-- Decodes the server section (schema subset of the external server
package: listen addresses and ports). -/
def decodeServer (render : List Piece → String) (v : DocVal) (s : ServerConfig) :
    Except String ServerConfig :=
  match v with
  | .map l =>
    match checkKeys ["http_listen_address", "http_listen_port", "grpc_listen_port"] l with
    | .error e => .error e
    | .ok _ =>
      match optScalar render l "http_listen_address" s.httpListenAddress with
      | .error e => .error e
      | .ok addr =>
        match optNatScalar render l "http_listen_port" s.httpListenPort with
        | .error e => .error e
        | .ok hp =>
          match optNatScalar render l "grpc_listen_port" s.grpcListenPort with
          | .error e => .error e
          | .ok gp =>
            .ok { s with httpListenAddress := addr, httpListenPort := hp, grpcListenPort := gp }
  | _ => .error "yaml: cannot unmarshal into server config"

/-- Decodes the external-labels mapping: arbitrary label names, scalar
values, duplicate names rejected. -/
def decodeLabels (render : List Piece → String) :
    List (String × DocVal) → Except String (List (String × String))
  | [] => .ok []
  | (k, .scalar ps) :: rest =>
    match decodeLabels render rest with
    | .error e => .error e
    | .ok tail => .ok ((k, render ps) :: tail)
  | _ => .error "yaml: cannot unmarshal into label value"

/-- Decodes a sequence of scalar items (remote-write destinations). -/
def decodeScalarSeq (render : List Piece → String) :
    List DocVal → Except String (List String)
  | [] => .ok []
  | .scalar ps :: rest =>
    match decodeScalarSeq render rest with
    | .error e => .error e
    | .ok tail => .ok (render ps :: tail)
  | _ => .error "yaml: cannot unmarshal into string sequence"

/-- Keys of the metrics global section schema. -/
def globalKeys : List String :=
  ["scrape_interval", "scrape_timeout", "evaluation_interval", "external_labels", "remote_write"]

/-- Decodes the metrics global section. -/
def decodeGlobal (render : List Piece → String) (v : DocVal) (g : GlobalConfig) :
    Except String GlobalConfig :=
  match v with
  | .map l =>
    match checkKeys globalKeys l with
    | .error e => .error e
    | .ok _ =>
      match optScalar render l "scrape_interval" g.prometheus.scrapeInterval with
      | .error e => .error e
      | .ok si =>
        match optScalar render l "scrape_timeout" g.prometheus.scrapeTimeout with
        | .error e => .error e
        | .ok st =>
          match optScalar render l "evaluation_interval" g.prometheus.evaluationInterval with
          | .error e => .error e
          | .ok ei =>
            match
              (match lookupKey "external_labels" l with
               | none => .ok g.prometheus.externalLabels
               | some (.map ll) =>
                 match checkDup ll with
                 | .error e => .error e
                 | .ok _ => decodeLabels render ll
               | some _ => .error "yaml: cannot unmarshal into label map" :
                Except String (List (String × String))) with
            | .error e => .error e
            | .ok labels =>
              match
                (match lookupKey "remote_write" l with
                 | none => .ok g.remoteWrite
                 | some (.seq items) => decodeScalarSeq render items
                 | some _ => .error "yaml: cannot unmarshal into remote write list" :
                  Except String (List String)) with
              | .error e => .error e
              | .ok rw =>
                .ok { prometheus :=
                        { scrapeInterval := si, scrapeTimeout := st,
                          evaluationInterval := ei, externalLabels := labels }
                      remoteWrite := rw }
  | _ => .error "yaml: cannot unmarshal into global config"

/-- Decodes the metrics subsystem section (schema subset:
`wal_directory` and `global`). -/
def decodeMetrics (render : List Piece → String) (v : DocVal) (m : MetricsConfig) :
    Except String MetricsConfig :=
  match v with
  | .map l =>
    match checkKeys ["wal_directory", "global"] l with
    | .error e => .error e
    | .ok _ =>
      match optScalar render l "wal_directory" m.walDirectory with
      | .error e => .error e
      | .ok w =>
        match optField l "global" (decodeGlobal render) m.global with
        | .error e => .error e
        | .ok g => .ok { m with walDirectory := w, global := g }
  | _ => .error "yaml: cannot unmarshal into metrics config"

/-- Decodes the integrations subsystem section (schema subset:
`prometheus_remote_write`). -/
def decodeIntegrations (render : List Piece → String) (v : DocVal) (i : ManagerConfig) :
    Except String ManagerConfig :=
  match v with
  | .map l =>
    match checkKeys ["prometheus_remote_write"] l with
    | .error e => .error e
    | .ok _ =>
      match
        (match lookupKey "prometheus_remote_write" l with
         | none => .ok i.prometheusRemoteWrite
         | some (.seq items) => decodeScalarSeq render items
         | some _ => .error "yaml: cannot unmarshal into remote write list" :
          Except String (List String)) with
      | .error e => .error e
      | .ok rw => .ok { i with prometheusRemoteWrite := rw }
  | _ => .error "yaml: cannot unmarshal into integrations config"

/-- Decodes the automatic-logging block of one trace instance. -/
def decodeAutoLogging (render : List Piece → String) (v : DocVal) :
    Except String AutomaticLoggingConfig :=
  match v with
  | .map l =>
    match checkKeys ["backend", "logs_instance_name"] l with
    | .error e => .error e
    | .ok _ =>
      match optScalar render l "backend" "" with
      | .error e => .error e
      | .ok b =>
        match optScalar render l "logs_instance_name" "" with
        | .error e => .error e
        | .ok n => .ok { backend := b, logsInstanceName := n }
  | _ => .error "yaml: cannot unmarshal into automatic logging config"

/-- Decodes one trace-processing instance. -/
def decodeTempoInstance (render : List Piece → String) (v : DocVal) :
    Except String TempoInstance :=
  match v with
  | .map l =>
    match checkKeys ["name", "automatic_logging"] l with
    | .error e => .error e
    | .ok _ =>
      match optScalar render l "name" "" with
      | .error e => .error e
      | .ok n =>
        match lookupKey "automatic_logging" l with
        | none => .ok { name := n, automaticLogging := none }
        | some av =>
          match decodeAutoLogging render av with
          | .error e => .error e
          | .ok al => .ok { name := n, automaticLogging := some al }
  | _ => .error "yaml: cannot unmarshal into tempo instance"

/-- Decodes the list of trace-processing instances. -/
def decodeTempoInstances (render : List Piece → String) :
    List DocVal → Except String (List TempoInstance)
  | [] => .ok []
  | v :: rest =>
    match decodeTempoInstance render v with
    | .error e => .error e
    | .ok i =>
      match decodeTempoInstances render rest with
      | .error e => .error e
      | .ok tail => .ok (i :: tail)

/-- Decodes the trace-processing subsystem section. -/
def decodeTempo (render : List Piece → String) (v : DocVal) (t : TempoConfig) :
    Except String TempoConfig :=
  match v with
  | .map l =>
    match checkKeys ["configs"] l with
    | .error e => .error e
    | .ok _ =>
      match lookupKey "configs" l with
      | none => .ok t
      | some (.seq items) =>
        match decodeTempoInstances render items with
        | .error e => .error e
        | .ok is => .ok { configs := is }
      | some _ => .error "yaml: cannot unmarshal into tempo configs"
  | _ => .error "yaml: cannot unmarshal into tempo config"

/-- Decodes one log-shipping instance (schema subset: the name). -/
def decodeLogsInstance (render : List Piece → String) (v : DocVal) :
    Except String LogsInstance :=
  match v with
  | .map l =>
    match checkKeys ["name"] l with
    | .error e => .error e
    | .ok _ =>
      match optScalar render l "name" "" with
      | .error e => .error e
      | .ok n => .ok { name := n }
  | _ => .error "yaml: cannot unmarshal into logs instance"

/-- Decodes the list of log-shipping instances. -/
def decodeLogsInstances (render : List Piece → String) :
    List DocVal → Except String (List LogsInstance)
  | [] => .ok []
  | v :: rest =>
    match decodeLogsInstance render v with
    | .error e => .error e
    | .ok i =>
      match decodeLogsInstances render rest with
      | .error e => .error e
      | .ok tail => .ok (i :: tail)

/-- Decodes a log-shipping section (used for both the `logs` key and
the deprecated `loki` key). -/
def decodeLogs (render : List Piece → String) (v : DocVal) :
    Except String LogsConfig :=
  match v with
  | .map l =>
    match checkKeys ["configs"] l with
    | .error e => .error e
    | .ok _ =>
      match lookupKey "configs" l with
      | none => .ok { configs := [] }
      | some (.seq items) =>
        match decodeLogsInstances render items with
        | .error e => .error e
        | .ok is => .ok { configs := is }
      | some _ => .error "yaml: cannot unmarshal into logs configs"
  | _ => .error "yaml: cannot unmarshal into logs config"

/-- Decodes an optional nil-able section: absent keys leave the pointer
nil, a present key decodes a fresh section. -/
def optLogsField (render : List Piece → String) (l : List (String × DocVal)) (k : String)
    (cur : Option LogsConfig) : Except String (Option LogsConfig) :=
  match lookupKey k l with
  | none => .ok cur
  | some v =>
    match decodeLogs render v with
    | .error e => .error e
    | .ok lc => .ok (some lc)

/-- Top-level keys recognized by the configuration tree's schema (the
yaml tags of struct `Config`; fields tagged `-` are absent). -/
def configKeys : List String :=
  ["server", "prometheus", "integrations", "tempo", "logs", "loki"]

/-- Decodes a document tree into the configuration tree.  Following
`Config.UnmarshalYAML`, decoding starts from the seeded defaults
(`*c = DefaultConfig` plus flag-registration defaults), discarding the
caller's current tree, and then overwrites exactly the fields present
in the document. -/
def decodeConfig (render : List Piece → String) (v : DocVal) : Except String Config :=
  match v with
  | .map l =>
    match checkKeys configKeys l with
    | .error e => .error e
    | .ok _ =>
      let c := seededDefaults
      match optField l "server" (decodeServer render) c.server with
      | .error e => .error e
      | .ok s =>
        match optField l "prometheus" (decodeMetrics render) c.prometheus with
        | .error e => .error e
        | .ok p =>
          match optField l "integrations" (decodeIntegrations render) c.integrations with
          | .error e => .error e
          | .ok i =>
            match optField l "tempo" (decodeTempo render) c.tempo with
            | .error e => .error e
            | .ok t =>
              match optLogsField render l "logs" c.logs with
              | .error e => .error e
              | .ok lg =>
                match optLogsField render l "loki" c.loki with
                | .error e => .error e
                | .ok lk =>
                  .ok { c with
                        server := s, prometheus := p, integrations := i,
                        tempo := t, logs := lg, loki := lk }
  | _ => .error "yaml: cannot unmarshal into config"

/-- LoadBytes unmarshals a config from a buffer (`LoadBytes` of
`pkg/config`): optionally expand with environment variables, then
unmarshal strictly.  The incoming tree is discarded because
`Config.UnmarshalYAML` re-seeds the defaults before decoding; on
failure no tree is produced. -/
def LoadBytes (env : String → String) (d : RawDoc) (expandEnvVars : Bool) (_c : Config) :
    Except String Config :=
  match d with
  | .malformed msg => .error msg
  | .node v => decodeConfig (renderScalar expandEnvVars env) v

/-- A loader that serves fixed document bytes, as the tests inject into
`load` in place of `LoadFile`. -/
def bytesLoader (env : String → String) (d : RawDoc) :
    String → Bool → Config → Except String Config :=
  fun _file expand c => LoadBytes env d expand c

/-! ## Migration and cascade resolver -/

/-- Whether the resolved log-shipping subsystem contains an instance of
the given name. -/
def logsHasConfig (logs : Option LogsConfig) (name : String) : Bool :=
  match logs with
  | none => false
  | some lc => lc.configs.any (fun i => i.name == name)

/-- The cross-reference error message of the validator, naming the
referencing trace instance and the missing logs instance. -/
def autoLoggingErr (instName target : String) : String :=
  "failed to validate automatic_logging for tempo config " ++ instName ++
    ": specified logs config " ++ target ++ " not found in agent config"

/-- Modelled from the spec: the trace subsystem's cross-reference check
(`tempo.Config.Validate`, external to the snapshot): every trace
instance whose automatic-logging block declares the logs backend in use
must name an existing logs instance, otherwise validation fails with
the owner/target error shape. -/
def validateTempoInstances (logs : Option LogsConfig) :
    List TempoInstance → Except String Unit
  | [] => .ok ()
  | i :: rest =>
    match i.automaticLogging with
    | none => validateTempoInstances logs rest
    | some al =>
      if al.backend == "logs_instance" && !logsHasConfig logs al.logsInstanceName then
        .error (autoLoggingErr i.name al.logsInstanceName)
      else validateTempoInstances logs rest

/-- Modelled from the spec: `tempo.Config.Validate` checks the
cross-reference constraints of every trace instance against the
resolved logs subsystem. -/
def TempoConfig.validate (t : TempoConfig) (logs : Option LogsConfig) :
    Except String Unit :=
  validateTempoInstances logs t.configs

/-- Modelled from the spec: the metrics subsystem's own
default-application routine (`metrics.Config.ApplyDefaults`, external
to the snapshot) is opaque to the pipeline; theorems about the resolver
quantify over it, and the pipeline instantiates it with a routine that
succeeds without modification. -/
def MetricsConfig.applyDefaults (m : MetricsConfig) : Except String MetricsConfig :=
  .ok m

/-- Modelled from the spec: the integrations subsystem's own
default-application routine (`integrations.ManagerConfig.ApplyDefaults`,
external to the snapshot), reading the resolved metrics section; opaque
to the pipeline, instantiated with a routine that succeeds without
modification. -/
def ManagerConfig.applyDefaults (_prom : MetricsConfig) (i : ManagerConfig) :
    Except String ManagerConfig :=
  .ok i

/-- Steps of one `Config.ApplyDefaults` execution, recorded in the
order the source performs them. -/
inductive Ev where
  | promDefaults
  | aliasMapping
  | integrationsDefaults
  | cascade
  | crossValidation
deriving DecidableEq, Repr

/-- ApplyDefaults sets default values in the config
(`Config.ApplyDefaults` of `pkg/config`), parameterized over the two
opaque subsystem routines and instrumented with the list of steps it
performed, in order: the metrics subsystem's own defaults, then the
loki/logs alias check and migration, then the integrations subsystem's
own defaults, then the port/TLS/remote-write/global cascades, then the
trace cross-reference validation. -/
def Config.applyDefaultsT
    (promAD : MetricsConfig → Except String MetricsConfig)
    (integAD : MetricsConfig → ManagerConfig → Except String ManagerConfig)
    (c : Config) : Except String Config × List Ev :=
  match promAD c.prometheus with
  | .error e => (.error e, [.promDefaults])
  | .ok prom =>
    let c1 := { c with prometheus := prom }
    if c1.logs.isSome && c1.loki.isSome then
      (.error "at most one of loki and logs should be specified",
       [.promDefaults, .aliasMapping])
    else
      let c2 :=
        if c1.logs.isNone && c1.loki.isSome then
          { c1 with logs := c1.loki, loki := none, usedDeprecatedLoki := true }
        else c1
      match integAD c2.prometheus c2.integrations with
      | .error e => (.error e, [.promDefaults, .aliasMapping, .integrationsDefaults])
      | .ok ints =>
        let c3 := { c2 with integrations := ints }
        let c4 :=
          { c3 with
            prometheus :=
              { c3.prometheus with
                serviceConfig :=
                  { lifecycler :=
                      { c3.prometheus.serviceConfig.lifecycler with
                        listenPort := c3.server.grpcListenPort } } }
            integrations :=
              { c3.integrations with
                listenPort := c3.server.httpListenPort
                listenHost := c3.server.httpListenAddress
                serverUsingTLS :=
                  !(c3.server.httpTLSConfig.tlsKeyPath == "") &&
                  !(c3.server.httpTLSConfig.tlsCertPath == "") } }
        let c5 :=
          if c4.integrations.prometheusRemoteWrite.length == 0 then
            { c4 with integrations :=
                { c4.integrations with
                  prometheusRemoteWrite := c4.prometheus.global.remoteWrite } }
          else c4
        let c6 :=
          { c5 with integrations :=
              { c5.integrations with
                prometheusGlobalConfig := c5.prometheus.global.prometheus } }
        match c6.tempo.validate c6.logs with
        | .error e =>
          (.error e,
           [.promDefaults, .aliasMapping, .integrationsDefaults, .cascade, .crossValidation])
        | .ok _ =>
          (.ok c6,
           [.promDefaults, .aliasMapping, .integrationsDefaults, .cascade, .crossValidation])

/-- The resolver's result, forgetting the step trace. -/
def Config.applyDefaultsWith
    (promAD : MetricsConfig → Except String MetricsConfig)
    (integAD : MetricsConfig → ManagerConfig → Except String ManagerConfig)
    (c : Config) : Except String Config :=
  (Config.applyDefaultsT promAD integAD c).1

/-- ApplyDefaults with the pipeline's subsystem routines plugged in. -/
def Config.ApplyDefaults (c : Config) : Except String Config :=
  Config.applyDefaultsWith MetricsConfig.applyDefaults ManagerConfig.applyDefaults c

/-! ## Precedence merger: flags and load -/

/-- Invocation arguments, modelled after lexing as the set of
explicitly supplied flag values; a `none` field is a flag not supplied
on the command line.  The modelled flags are the three locals of `load`
(`config.file`, `version`, `config.expand-env`) and the
configuration-bound flags `prometheus.wal-directory`, `reload-addr`
and `reload-port`; flag-syntax parse failures are outside the model. -/
structure Args where
  configFile : Option String := none
  version : Option Bool := none
  configExpandEnv : Option Bool := none
  walDirectory : Option String := none
  reloadAddr : Option String := none
  reloadPort : Option Nat := none
deriving DecidableEq, Repr

/-- One pass of `fs.Parse(args)` over the configuration-bound flags:
each explicitly supplied flag overwrites its bound field, every other
field is left untouched (registration-time defaults were already
written by `Config.registerFlags` and are not re-applied by a parse). -/
def applyArgs (a : Args) (c : Config) : Config :=
  let c :=
    match a.walDirectory with
    | some w => { c with prometheus := { c.prometheus with walDirectory := w } }
    | none => c
  let c :=
    match a.reloadAddr with
    | some r => { c with reloadAddress := r }
    | none => c
  match a.reloadPort with
  | some p => { c with reloadPort := p }
  | none => c

/-- Outcome of one resolution: a resolved tree, an error, or the
version-request short-circuit that terminates the process. -/
inductive LoadResult where
  | ok (c : Config)
  | err (e : String)
  | exit (code : Nat)
deriving DecidableEq, Repr

/-- Whether the resolution produced a tree. -/
def LoadResult.isOk : LoadResult → Bool
  | .ok _ => true
  | _ => false

/-- load loads a config file from a flagset (`load` of `pkg/config`):
seed the defaults, register flags (writing their registration
defaults), parse the arguments a first time, short-circuit on a
version request, fail when no document path was supplied, load and
decode the document through the injected loader, parse the arguments a
second time so that explicitly supplied flags override document
content, and finally apply defaults, wrapping resolver failures in the
config-file error prefix. -/
def load (a : Args) (loader : String → Bool → Config → Except String Config) :
    LoadResult :=
  let cfg := Config.registerFlags DefaultConfig
  let file := a.configFile.getD ""
  let printVersion := a.version.getD false
  let configExpandEnv := a.configExpandEnv.getD false
  let cfg := applyArgs a cfg
  if printVersion then .exit 0
  else if file == "" then .err "-config.file flag required"
  else
    match loader file configExpandEnv cfg with
    | .error e => .err ("error loading config file " ++ file ++ ": " ++ e)
    | .ok cfg1 =>
      let cfg2 := applyArgs a cfg1
      match cfg2.ApplyDefaults with
      | .error e => .err ("error in config file: " ++ e)
      | .ok cfg3 => .ok cfg3

/-! ## Claim-side predicates over documents

These predicates restate, from the claims' wording, what a document
must satisfy; they are compared against the decoder's behavior. -/

/-- Every mapping reachable in the document at a schema position has
pairwise-distinct keys and only schema-recognized keys.  Non-mapping
nodes at mapping positions are unconstrained here (the decoder rejects
them as type mismatches, a separate clause of the claim). -/
def strictTLSPos : DocVal → Bool
  | _ => true

/-- Strictness of a document node standing at the server position. -/
def strictServerPos : DocVal → Bool
  | .map l =>
    nodupKeys l && keysAmong ["http_listen_address", "http_listen_port", "grpc_listen_port"] l
  | _ => true

/-- Strictness of a node standing at the external-labels position:
label names are free-form, only duplicates are rejected. -/
def strictLabelsPos : DocVal → Bool
  | .map l => nodupKeys l
  | _ => true

/-- Strictness of a node standing at the metrics global position. -/
def strictGlobalPos : DocVal → Bool
  | .map l =>
    nodupKeys l && keysAmong globalKeys l &&
      (match lookupKey "external_labels" l with
       | some v => strictLabelsPos v
       | none => true)
  | _ => true

/-- Strictness of a node standing at the metrics position. -/
def strictMetricsPos : DocVal → Bool
  | .map l =>
    nodupKeys l && keysAmong ["wal_directory", "global"] l &&
      (match lookupKey "global" l with
       | some v => strictGlobalPos v
       | none => true)
  | _ => true

/-- Strictness of a node standing at the integrations position. -/
def strictIntegrationsPos : DocVal → Bool
  | .map l => nodupKeys l && keysAmong ["prometheus_remote_write"] l
  | _ => true

/-- Strictness of a node standing at an automatic-logging position. -/
def strictAutoLoggingPos : DocVal → Bool
  | .map l => nodupKeys l && keysAmong ["backend", "logs_instance_name"] l
  | _ => true

/-- Strictness of a node standing at a trace-instance position. -/
def strictTempoInstancePos : DocVal → Bool
  | .map l =>
    nodupKeys l && keysAmong ["name", "automatic_logging"] l &&
      (match lookupKey "automatic_logging" l with
       | some v => strictAutoLoggingPos v
       | none => true)
  | _ => true

/-- Strictness of a node standing at the tempo position. -/
def strictTempoPos : DocVal → Bool
  | .map l =>
    nodupKeys l && keysAmong ["configs"] l &&
      (match lookupKey "configs" l with
       | some (.seq items) => items.all strictTempoInstancePos
       | _ => true)
  | _ => true

/-- Strictness of a node standing at a logs-instance position. -/
def strictLogsInstancePos : DocVal → Bool
  | .map l => nodupKeys l && keysAmong ["name"] l
  | _ => true

/-- Strictness of a node standing at the logs (or legacy loki)
position. -/
def strictLogsPos : DocVal → Bool
  | .map l =>
    nodupKeys l && keysAmong ["configs"] l &&
      (match lookupKey "configs" l with
       | some (.seq items) => items.all strictLogsInstancePos
       | _ => true)
  | _ => true

/-- Strictness of the whole document: every mapping the schema can
reach has pairwise-distinct and recognized keys. -/
def strictDoc : DocVal → Bool
  | .map l =>
    nodupKeys l && keysAmong configKeys l &&
      (match lookupKey "server" l with
       | some v => strictServerPos v
       | none => true) &&
      (match lookupKey "prometheus" l with
       | some v => strictMetricsPos v
       | none => true) &&
      (match lookupKey "integrations" l with
       | some v => strictIntegrationsPos v
       | none => true) &&
      (match lookupKey "tempo" l with
       | some v => strictTempoPos v
       | none => true) &&
      (match lookupKey "logs" l with
       | some v => strictLogsPos v
       | none => true) &&
      (match lookupKey "loki" l with
       | some v => strictLogsPos v
       | none => true)
  | _ => true

/-- The value the document supplies for the WAL directory field
(`prometheus.wal_directory`), if it supplies one as a scalar. -/
def docWalDirectory (render : List Piece → String) (v : DocVal) : Option String :=
  match v with
  | .map l =>
    match lookupKey "prometheus" l with
    | some (.map pl) =>
      match lookupKey "wal_directory" pl with
      | some (.scalar ps) => some (render ps)
      | _ => none
    | _ => none
  | _ => none

/-- The value the document supplies for the global scrape timeout
(`prometheus.global.scrape_timeout`), if it supplies one as a scalar. -/
def docScrapeTimeout (render : List Piece → String) (v : DocVal) : Option String :=
  match v with
  | .map l =>
    match lookupKey "prometheus" l with
    | some (.map pl) =>
      match lookupKey "global" pl with
      | some (.map gl) =>
        match lookupKey "scrape_timeout" gl with
        | some (.scalar ps) => some (render ps)
        | _ => none
      | _ => none
    | _ => none
  | _ => none

/-! ## Concrete example inputs

Concrete documents, environments and argument vectors used as witness
inputs; they mirror the documents of the repository's own tests. -/

/-- A plain literal scalar. -/
def sLit (s : String) : DocVal :=
  .scalar [.lit s]

/-- The empty environment. -/
def noEnv : String → String :=
  fun _ => ""

/-- An environment defining only SCRAPE_TIMEOUT, as the substitution
test sets. -/
def exampleEnv : String → String :=
  fun n => if n == "SCRAPE_TIMEOUT" then "33s" else ""

/-- The basic document of the precedence tests: a WAL directory and a
global scrape timeout. -/
def docBasic : DocVal :=
  .map [("prometheus", .map [
    ("wal_directory", sLit "/tmp/wal"),
    ("global", .map [("scrape_timeout", sLit "33s")])])]

/-- The substitution test document: a digit-only placeholder as a label
value and a named placeholder as the scrape timeout. -/
def docExpandExample : DocVal :=
  .map [("prometheus", .map [
    ("global", .map [
      ("external_labels", .map [("foo", .scalar [.placeholder "1"])]),
      ("scrape_timeout", .scalar [.placeholder "SCRAPE_TIMEOUT"])])])]

/-- The cross-reference failure document: a legacy loki section naming
only foo, and a trace instance that declares the logs backend and
references the missing logs instance default. -/
def docFailRef : DocVal :=
  .map [
    ("loki", .map [("configs", .seq [.map [("name", sLit "foo")]])]),
    ("tempo", .map [("configs", .seq [.map [
      ("name", sLit "default"),
      ("automatic_logging", .map [
        ("backend", sLit "logs_instance"),
        ("logs_instance_name", sLit "default")])]])])]

/-- The cross-reference success document: as `docFailRef` but the trace
instance references foo, which only the legacy loki section supplies. -/
def docLegacyRef : DocVal :=
  .map [
    ("loki", .map [("configs", .seq [.map [("name", sLit "foo")]])]),
    ("tempo", .map [("configs", .seq [.map [
      ("name", sLit "default"),
      ("automatic_logging", .map [
        ("backend", sLit "logs_instance"),
        ("logs_instance_name", sLit "foo")])]])])]

/-- The duplicate-key document of the strict-parsing test: the global
scrape timeout set twice at one nesting level. -/
def docDupKey : DocVal :=
  .map [("prometheus", .map [
    ("wal_directory", sLit "/tmp/wal"),
    ("global", .map [
      ("scrape_timeout", sLit "10s"),
      ("scrape_timeout", sLit "15s")])])]

/-- A document with a top-level key the schema does not recognize. -/
def docUnknownKey : DocVal :=
  .map [("promtheus", .map [("wal_directory", sLit "/tmp/wal")])]

/-- A document populating only the legacy loki section. -/
def docLokiOnly : DocVal :=
  .map [("loki", .map [("configs", .seq [.map [("name", sLit "foo")]])])]

/-- Arguments supplying the document path, a WAL directory override and
nothing else. -/
def argsWal : Args :=
  { configFile := some "test", walDirectory := some "/flag/wal" }

/-- Arguments supplying only the document path. -/
def argsPlain : Args :=
  { configFile := some "test" }

/-- A configuration whose metrics section carries one global
remote-write destination, exercising the remote-write cascade. -/
def cascadeExample : Config :=
  { DefaultConfig with
    prometheus :=
      { metricsDefaultConfig with
        global := { metricsDefaultConfig.global with remoteWrite := ["rw1"] } } }

/-- A configuration populating both the legacy and the current logs
slot. -/
def bothLogsExample : Config :=
  { DefaultConfig with
    logs := some { configs := [{ name := "current" }] }
    loki := some { configs := [{ name := "legacy" }] } }

/-- A configuration populating only the legacy loki slot. -/
def lokiOnlyExample : Config :=
  { DefaultConfig with loki := some { configs := [{ name := "foo" }] } }

/-- The tree of a successful resolution, or the fallback when the
resolution did not succeed. -/
def LoadResult.getConfig (r : LoadResult) (fallback : Config) : Config :=
  match r with
  | .ok c => c
  | _ => fallback

/-- The tree of a successful resolver run, or the fallback. -/
def okOr (x : Except String Config) (fallback : Config) : Config :=
  match x with
  | .ok c => c
  | _ => fallback

/-! ## Helper lemmas -/

theorem checkKeys_ok {allowed : List String} {l : List (String × DocVal)} {u : Unit}
    (h : checkKeys allowed l = .ok u) :
    nodupKeys l = true ∧ keysAmong allowed l = true := by
  unfold checkKeys at h
  by_cases h1 : nodupKeys l = true
  · by_cases h2 : keysAmong allowed l = true
    · exact ⟨h1, h2⟩
    · rw [if_pos h1, if_neg h2] at h
      exact Except.noConfusion h
  · rw [if_neg h1] at h
    exact Except.noConfusion h

theorem checkDup_ok {l : List (String × DocVal)} {u : Unit}
    (h : checkDup l = .ok u) : nodupKeys l = true := by
  unfold checkDup at h
  by_cases h1 : nodupKeys l = true
  · exact h1
  · rw [if_neg h1] at h
    exact Except.noConfusion h

theorem optField_some_elim {α : Type} {l : List (String × DocVal)} {k : String} {v : DocVal}
    {dec : DocVal → α → Except String α} {cur x : α}
    (hk : lookupKey k l = some v) (h : optField l k dec cur = .ok x) :
    dec v cur = .ok x := by
  unfold optField at h
  rw [hk] at h
  exact h

theorem decodeServer_strict (r : List Piece → String) (v : DocVal) (s s' : ServerConfig)
    (h : decodeServer r v s = .ok s') : strictServerPos v = true := by
  cases v with
  | scalar ps => rfl
  | seq items => rfl
  | map l =>
    dsimp only [decodeServer] at h
    split at h
    · exact Except.noConfusion h
    · next u hk =>
      have hc := checkKeys_ok hk
      simp [strictServerPos, hc.1, hc.2]

theorem decodeGlobal_strict (r : List Piece → String) (v : DocVal) (g g' : GlobalConfig)
    (h : decodeGlobal r v g = .ok g') : strictGlobalPos v = true := by
  cases v with
  | scalar ps => rfl
  | seq items => rfl
  | map l =>
    dsimp only [decodeGlobal] at h
    split at h
    · exact Except.noConfusion h
    · next u hk =>
      have hc := checkKeys_ok hk
      split at h
      · exact Except.noConfusion h
      · split at h
        · exact Except.noConfusion h
        · split at h
          · exact Except.noConfusion h
          · split at h
            · exact Except.noConfusion h
            · next labels hlab =>
              simp only [strictGlobalPos, hc.1, hc.2, Bool.true_and]
              cases hx : lookupKey "external_labels" l with
              | none => rfl
              | some lv =>
                rw [hx] at hlab
                cases lv with
                | scalar ps => rfl
                | seq items => rfl
                | map ll =>
                  dsimp only at hlab
                  split at hlab
                  · exact Except.noConfusion hlab
                  · next u2 hd =>
                    simpa [strictLabelsPos] using checkDup_ok hd

theorem decodeMetrics_strict (r : List Piece → String) (v : DocVal) (m m' : MetricsConfig)
    (h : decodeMetrics r v m = .ok m') : strictMetricsPos v = true := by
  cases v with
  | scalar ps => rfl
  | seq items => rfl
  | map l =>
    dsimp only [decodeMetrics] at h
    split at h
    · exact Except.noConfusion h
    · next u hk =>
      have hc := checkKeys_ok hk
      split at h
      · exact Except.noConfusion h
      · next w hw =>
        simp only [strictMetricsPos, hc.1, hc.2, Bool.true_and]
        cases hx : lookupKey "global" l with
        | none => rfl
        | some gv =>
          split at h
          · exact Except.noConfusion h
          · next g hg =>
            exact decodeGlobal_strict r gv m.global g (optField_some_elim hx hg)

theorem decodeIntegrations_strict (r : List Piece → String) (v : DocVal)
    (i i' : ManagerConfig) (h : decodeIntegrations r v i = .ok i') :
    strictIntegrationsPos v = true := by
  cases v with
  | scalar ps => rfl
  | seq items => rfl
  | map l =>
    dsimp only [decodeIntegrations] at h
    split at h
    · exact Except.noConfusion h
    · next u hk =>
      have hc := checkKeys_ok hk
      simp [strictIntegrationsPos, hc.1, hc.2]

theorem decodeAutoLogging_strict (r : List Piece → String) (v : DocVal)
    (al : AutomaticLoggingConfig) (h : decodeAutoLogging r v = .ok al) :
    strictAutoLoggingPos v = true := by
  cases v with
  | scalar ps => rfl
  | seq items => rfl
  | map l =>
    dsimp only [decodeAutoLogging] at h
    split at h
    · exact Except.noConfusion h
    · next u hk =>
      have hc := checkKeys_ok hk
      simp [strictAutoLoggingPos, hc.1, hc.2]

theorem decodeTempoInstance_strict (r : List Piece → String) (v : DocVal)
    (i : TempoInstance) (h : decodeTempoInstance r v = .ok i) :
    strictTempoInstancePos v = true := by
  cases v with
  | scalar ps => rfl
  | seq items => rfl
  | map l =>
    dsimp only [decodeTempoInstance] at h
    split at h
    · exact Except.noConfusion h
    · next u hk =>
      have hc := checkKeys_ok hk
      split at h
      · exact Except.noConfusion h
      · next n hn =>
        simp only [strictTempoInstancePos, hc.1, hc.2, Bool.true_and]
        cases hx : lookupKey "automatic_logging" l with
        | none => rfl
        | some av =>
          rw [hx] at h
          dsimp only at h
          split at h
          · exact Except.noConfusion h
          · next al hal =>
            exact decodeAutoLogging_strict r av al hal

theorem decodeTempoInstances_strict (r : List Piece → String) (items : List DocVal)
    (is : List TempoInstance) (h : decodeTempoInstances r items = .ok is) :
    items.all strictTempoInstancePos = true := by
  induction items generalizing is with
  | nil => rfl
  | cons v rest ih =>
    dsimp only [decodeTempoInstances] at h
    split at h
    · exact Except.noConfusion h
    · next i hi =>
      split at h
      · exact Except.noConfusion h
      · next tail htail =>
        simp [List.all_cons, decodeTempoInstance_strict r v i hi, ih tail htail]

theorem decodeTempo_strict (r : List Piece → String) (v : DocVal) (t t' : TempoConfig)
    (h : decodeTempo r v t = .ok t') : strictTempoPos v = true := by
  cases v with
  | scalar ps => rfl
  | seq items => rfl
  | map l =>
    dsimp only [decodeTempo] at h
    split at h
    · exact Except.noConfusion h
    · next u hk =>
      have hc := checkKeys_ok hk
      simp only [strictTempoPos, hc.1, hc.2, Bool.true_and]
      cases hx : lookupKey "configs" l with
      | none => rfl
      | some cv =>
        rw [hx] at h
        cases cv with
        | scalar ps => rfl
        | map ll => rfl
        | seq items =>
          dsimp only at h
          split at h
          · exact Except.noConfusion h
          · next is his =>
            exact decodeTempoInstances_strict r items is his

theorem decodeLogsInstance_strict (r : List Piece → String) (v : DocVal)
    (i : LogsInstance) (h : decodeLogsInstance r v = .ok i) :
    strictLogsInstancePos v = true := by
  cases v with
  | scalar ps => rfl
  | seq items => rfl
  | map l =>
    dsimp only [decodeLogsInstance] at h
    split at h
    · exact Except.noConfusion h
    · next u hk =>
      have hc := checkKeys_ok hk
      simp [strictLogsInstancePos, hc.1, hc.2]

theorem decodeLogsInstances_strict (r : List Piece → String) (items : List DocVal)
    (is : List LogsInstance) (h : decodeLogsInstances r items = .ok is) :
    items.all strictLogsInstancePos = true := by
  induction items generalizing is with
  | nil => rfl
  | cons v rest ih =>
    dsimp only [decodeLogsInstances] at h
    split at h
    · exact Except.noConfusion h
    · next i hi =>
      split at h
      · exact Except.noConfusion h
      · next tail htail =>
        simp [List.all_cons, decodeLogsInstance_strict r v i hi, ih tail htail]

theorem decodeLogs_strict (r : List Piece → String) (v : DocVal) (lc : LogsConfig)
    (h : decodeLogs r v = .ok lc) : strictLogsPos v = true := by
  cases v with
  | scalar ps => rfl
  | seq items => rfl
  | map l =>
    dsimp only [decodeLogs] at h
    split at h
    · exact Except.noConfusion h
    · next u hk =>
      have hc := checkKeys_ok hk
      simp only [strictLogsPos, hc.1, hc.2, Bool.true_and]
      cases hx : lookupKey "configs" l with
      | none => rfl
      | some cv =>
        rw [hx] at h
        cases cv with
        | scalar ps => rfl
        | map ll => rfl
        | seq items =>
          dsimp only at h
          split at h
          · exact Except.noConfusion h
          · next is his =>
            exact decodeLogsInstances_strict r items is his

theorem optLogsField_some_elim (r : List Piece → String) {l : List (String × DocVal)}
    {k : String} {v : DocVal} {cur x : Option LogsConfig}
    (hk : lookupKey k l = some v) (h : optLogsField r l k cur = .ok x) :
    ∃ lc, decodeLogs r v = .ok lc := by
  unfold optLogsField at h
  rw [hk] at h
  dsimp only at h
  split at h
  · exact Except.noConfusion h
  · next lc hlc => exact ⟨lc, hlc⟩

theorem decodeConfig_strict (r : List Piece → String) (v : DocVal) (c : Config)
    (h : decodeConfig r v = .ok c) : strictDoc v = true := by
  cases v with
  | scalar ps => rfl
  | seq items => rfl
  | map l =>
    dsimp only [decodeConfig] at h
    split at h
    · exact Except.noConfusion h
    · next u hk =>
      have hc := checkKeys_ok hk
      split at h
      · exact Except.noConfusion h
      · next s hs =>
        split at h
        · exact Except.noConfusion h
        · next p hp =>
          split at h
          · exact Except.noConfusion h
          · next i hi =>
            split at h
            · exact Except.noConfusion h
            · next t ht =>
              split at h
              · exact Except.noConfusion h
              · next lg hlg =>
                split at h
                · exact Except.noConfusion h
                · next lk hlk =>
                  simp only [strictDoc, hc.1, hc.2, Bool.true_and, Bool.and_eq_true]
                  refine ⟨⟨⟨⟨⟨?_, ?_⟩, ?_⟩, ?_⟩, ?_⟩, ?_⟩
                  · cases hx : lookupKey "server" l with
                    | none => rfl
                    | some sv =>
                      exact decodeServer_strict r sv seededDefaults.server s
                        (optField_some_elim hx hs)
                  · cases hx : lookupKey "prometheus" l with
                    | none => rfl
                    | some pv =>
                      exact decodeMetrics_strict r pv seededDefaults.prometheus p
                        (optField_some_elim hx hp)
                  · cases hx : lookupKey "integrations" l with
                    | none => rfl
                    | some iv =>
                      exact decodeIntegrations_strict r iv seededDefaults.integrations i
                        (optField_some_elim hx hi)
                  · cases hx : lookupKey "tempo" l with
                    | none => rfl
                    | some tv =>
                      exact decodeTempo_strict r tv seededDefaults.tempo t
                        (optField_some_elim hx ht)
                  · cases hx : lookupKey "logs" l with
                    | none => rfl
                    | some lv =>
                      rcases optLogsField_some_elim r hx hlg with ⟨lc, hlc⟩
                      exact decodeLogs_strict r lv lc hlc
                  · cases hx : lookupKey "loki" l with
                    | none => rfl
                    | some lv =>
                      rcases optLogsField_some_elim r hx hlk with ⟨lc, hlc⟩
                      exact decodeLogs_strict r lv lc hlc

theorem envsubstEval_append (a b : List Piece) (lookup : String → String) :
    envsubstEval (a ++ b) lookup = envsubstEval a lookup ++ envsubstEval b lookup := by
  induction a with
  | nil => simp [envsubstEval]
  | cons p rest ih =>
    cases p with
    | lit s => simp [envsubstEval, ih, String.append_assoc]
    | placeholder n => simp [envsubstEval, ih, String.append_assoc]

theorem decodeGlobal_project (r : List Piece → String) (gl : List (String × DocVal))
    (g g' : GlobalConfig) (h : decodeGlobal r (.map gl) g = .ok g') :
    g'.prometheus.scrapeTimeout =
      (match lookupKey "scrape_timeout" gl with
       | some (.scalar ps) => r ps
       | _ => g.prometheus.scrapeTimeout) := by
  dsimp only [decodeGlobal] at h
  split at h
  · exact Except.noConfusion h
  · split at h
    · exact Except.noConfusion h
    · next si hsi =>
      split at h
      · exact Except.noConfusion h
      · next st hst =>
        split at h
        · exact Except.noConfusion h
        · next ei hei =>
          split at h
          · exact Except.noConfusion h
          · next labels hlab =>
            split at h
            · exact Except.noConfusion h
            · next rw2 hrw =>
              injection h with he
              subst he
              unfold optScalar at hst
              cases hk : lookupKey "scrape_timeout" gl with
              | none =>
                rw [hk] at hst
                injection hst with he2
                subst he2
                rfl
              | some wv =>
                rw [hk] at hst
                cases wv with
                | scalar ps =>
                  dsimp only at hst
                  injection hst with he2
                  subst he2
                  rfl
                | map ll => exact Except.noConfusion hst
                | seq items => exact Except.noConfusion hst

theorem decodeMetrics_project (r : List Piece → String) (pl : List (String × DocVal))
    (m m' : MetricsConfig) (h : decodeMetrics r (.map pl) m = .ok m') :
    m'.walDirectory =
      (match lookupKey "wal_directory" pl with
       | some (.scalar ps) => r ps
       | _ => m.walDirectory)
  ∧ m'.global.prometheus.scrapeTimeout =
      (match lookupKey "global" pl with
       | some (.map gl) =>
         (match lookupKey "scrape_timeout" gl with
          | some (.scalar ps) => r ps
          | _ => m.global.prometheus.scrapeTimeout)
       | _ => m.global.prometheus.scrapeTimeout) := by
  dsimp only [decodeMetrics] at h
  split at h
  · exact Except.noConfusion h
  · split at h
    · exact Except.noConfusion h
    · next w hw =>
      split at h
      · exact Except.noConfusion h
      · next g hg =>
        injection h with he
        subst he
        constructor
        · unfold optScalar at hw
          cases hk : lookupKey "wal_directory" pl with
          | none =>
            rw [hk] at hw
            injection hw with he2
            subst he2
            rfl
          | some wv =>
            rw [hk] at hw
            cases wv with
            | scalar ps =>
              dsimp only at hw
              injection hw with he2
              subst he2
              rfl
            | map ll => exact Except.noConfusion hw
            | seq items => exact Except.noConfusion hw
        · cases hk : lookupKey "global" pl with
          | none =>
            unfold optField at hg
            rw [hk] at hg
            injection hg with he2
            subst he2
            rfl
          | some gv =>
            have hdg := optField_some_elim hk hg
            cases gv with
            | scalar ps => exact Except.noConfusion hdg
            | seq items => exact Except.noConfusion hdg
            | map gll => exact decodeGlobal_project r gll m.global g hdg

theorem decodeConfig_project (r : List Piece → String) (v : DocVal) (c : Config)
    (h : decodeConfig r v = .ok c) :
    c.prometheus.walDirectory =
      (docWalDirectory r v).getD seededDefaults.prometheus.walDirectory
  ∧ c.prometheus.global.prometheus.scrapeTimeout =
      (docScrapeTimeout r v).getD
        seededDefaults.prometheus.global.prometheus.scrapeTimeout
  ∧ c.reloadAddress = seededDefaults.reloadAddress
  ∧ c.reloadPort = seededDefaults.reloadPort := by
  cases v with
  | scalar ps => exact Except.noConfusion h
  | seq items => exact Except.noConfusion h
  | map l =>
    dsimp only [decodeConfig] at h
    split at h
    · exact Except.noConfusion h
    · split at h
      · exact Except.noConfusion h
      · next s hs =>
        split at h
        · exact Except.noConfusion h
        · next p hp =>
          split at h
          · exact Except.noConfusion h
          · next i hi =>
            split at h
            · exact Except.noConfusion h
            · next t ht =>
              split at h
              · exact Except.noConfusion h
              · next lg hlg =>
                split at h
                · exact Except.noConfusion h
                · next lk hlk =>
                  injection h with he
                  subst he
                  refine ⟨?_, ?_, rfl, rfl⟩
                  · cases hk : lookupKey "prometheus" l with
                    | none =>
                      unfold optField at hp
                      rw [hk] at hp
                      injection hp with he2
                      subst he2
                      dsimp only [docWalDirectory]
                      rw [hk]
                      rfl
                    | some pv =>
                      have hdm := optField_some_elim hk hp
                      cases pv with
                      | scalar ps => exact Except.noConfusion hdm
                      | seq items => exact Except.noConfusion hdm
                      | map pll =>
                        have hproj :=
                          (decodeMetrics_project r pll seededDefaults.prometheus p hdm).1
                        dsimp only [docWalDirectory]
                        rw [hk, hproj]
                        dsimp only
                        cases hk2 : lookupKey "wal_directory" pll with
                        | none => rfl
                        | some wv =>
                          cases wv with
                          | scalar ps => rfl
                          | map ll => rfl
                          | seq items => rfl
                  · cases hk : lookupKey "prometheus" l with
                    | none =>
                      unfold optField at hp
                      rw [hk] at hp
                      injection hp with he2
                      subst he2
                      dsimp only [docScrapeTimeout]
                      rw [hk]
                      rfl
                    | some pv =>
                      have hdm := optField_some_elim hk hp
                      cases pv with
                      | scalar ps => exact Except.noConfusion hdm
                      | seq items => exact Except.noConfusion hdm
                      | map pll =>
                        have hproj :=
                          (decodeMetrics_project r pll seededDefaults.prometheus p hdm).2
                        dsimp only [docScrapeTimeout]
                        rw [hk, hproj]
                        dsimp only
                        cases hk2 : lookupKey "global" pll with
                        | none => rfl
                        | some gv =>
                          cases gv with
                          | scalar ps => rfl
                          | seq items => rfl
                          | map gll =>
                            dsimp only
                            cases hk3 : lookupKey "scrape_timeout" gll with
                            | none => rfl
                            | some sv =>
                              cases sv with
                              | scalar ps => rfl
                              | map ll => rfl
                              | seq items => rfl

/-! ## Claims -/

/-- C2: with substitution enabled, every placeholder whose name is
digit-only contributes its raw spelling, braces included, to the
output, while every other placeholder contributes the looked-up
environment value; concretely, the external-labels document of the
substitution tests resolves a digit-only placeholder to its literal
spelling and the SCRAPE_TIMEOUT placeholder to 33s. -/
theorem envsubst_exclusion_rule :
    (∀ (env : String → String) (pre post : List Piece) (n : String),
       isNumericName n = true →
       envsubstEval (pre ++ .placeholder n :: post) (getenv env) =
         envsubstEval pre (getenv env) ++ renderRawPiece (.placeholder n) ++
           envsubstEval post (getenv env))
  ∧ (∀ (env : String → String) (pre post : List Piece) (n : String),
       isNumericName n = false →
       envsubstEval (pre ++ .placeholder n :: post) (getenv env) =
         envsubstEval pre (getenv env) ++ env n ++ envsubstEval post (getenv env))
  ∧ ((okOr (LoadBytes exampleEnv (.node docExpandExample) true DefaultConfig)
        DefaultConfig).prometheus.global.prometheus.externalLabels =
      [("foo", "$\x7b1\x7d")])
  ∧ ((okOr (LoadBytes exampleEnv (.node docExpandExample) true DefaultConfig)
        DefaultConfig).prometheus.global.prometheus.scrapeTimeout = "33s") := by
  refine ⟨?_, ?_, rfl, rfl⟩
  · intro env pre post n hn
    rw [envsubstEval_append]
    simp [envsubstEval, getenv, hn, renderRawPiece, String.append_assoc]
  · intro env pre post n hn
    rw [envsubstEval_append]
    simp [envsubstEval, getenv, hn, String.append_assoc]

/-- Witness for C2 at concrete inputs: the digit-only placeholder of
the tests stays literal and the named placeholder resolves. -/
theorem envsubst_exclusion_rule_witness :
    (envsubstEval [.placeholder "1"] (getenv exampleEnv) = "$\x7b1\x7d")
  ∧ (envsubstEval [.placeholder "SCRAPE_TIMEOUT"] (getenv exampleEnv) = "33s") := by
  constructor
  · have h := envsubst_exclusion_rule.1 exampleEnv [] [] "1" (by rfl)
    simpa [envsubstEval, renderRawPiece] using h
  · have h := envsubst_exclusion_rule.2.1 exampleEnv [] [] "SCRAPE_TIMEOUT" (by rfl)
    simpa [envsubstEval, exampleEnv] using h

/-- C8: resolution is deterministic: running `load` twice on equal
invocation arguments, equal document bytes and an unchanged
environment yields equal outcomes, and in particular structurally
equal configuration trees on success. -/
theorem load_deterministic (a1 a2 : Args) (env1 env2 : String → String)
    (d1 d2 : RawDoc)
    (ha : a1 = a2) (henv : env1 = env2) (hd : d1 = d2) :
    load a1 (bytesLoader env1 d1) = load a2 (bytesLoader env2 d2)
  ∧ (∀ c1 c2 : Config,
       load a1 (bytesLoader env1 d1) = .ok c1 →
       load a2 (bytesLoader env2 d2) = .ok c2 → c1 = c2) := by
  subst ha henv hd
  refine ⟨rfl, ?_⟩
  intro c1 c2 h1 h2
  rw [h1] at h2
  cases h2
  rfl

/-- Witness for C8 at concrete inputs: two runs over the basic test
document with the same arguments agree. -/
theorem load_deterministic_witness :
    load argsPlain (bytesLoader noEnv (.node docBasic)) =
      load argsPlain (bytesLoader noEnv (.node docBasic)) :=
  (load_deterministic argsPlain argsPlain noEnv noEnv (.node docBasic) (.node docBasic)
    rfl rfl rfl).1

/-- Whether a resolver step is the invocation of a subsystem's own
default-application routine. -/
def isSubsystemApply : Ev → Bool
  | .promDefaults => true
  | .integrationsDefaults => true
  | _ => false

/-- The steps a resolver run performed strictly before the alias
mapping step. -/
def stepsBeforeAlias (t : List Ev) : List Ev :=
  t.takeWhile (fun e => !(e == Ev.aliasMapping))

theorem applyDefaultsT_trace
    (promAD : MetricsConfig → Except String MetricsConfig)
    (integAD : MetricsConfig → ManagerConfig → Except String ManagerConfig)
    (c : Config) :
    (Config.applyDefaultsT promAD integAD c).2 = [Ev.promDefaults] ∨
    (Config.applyDefaultsT promAD integAD c).2 = [Ev.promDefaults, Ev.aliasMapping] ∨
    (Config.applyDefaultsT promAD integAD c).2 =
      [Ev.promDefaults, Ev.aliasMapping, Ev.integrationsDefaults] ∨
    (Config.applyDefaultsT promAD integAD c).2 =
      [Ev.promDefaults, Ev.aliasMapping, Ev.integrationsDefaults, Ev.cascade,
       Ev.crossValidation] := by
  dsimp only [Config.applyDefaultsT]
  split
  · exact Or.inl rfl
  · split
    · exact Or.inr (Or.inl rfl)
    · split
      · exact Or.inr (Or.inr (Or.inl rfl))
      · split
        · exact Or.inr (Or.inr (Or.inr rfl))
        · exact Or.inr (Or.inr (Or.inr rfl))

/-- C5 counterexample: in the resolver's own step order, the metrics
subsystem's default-application routine runs before the alias mapping
step, so the steps before the alias mapping are not free of subsystem
default-application calls, refuting the claim at a concrete input. -/
theorem applyDefaults_subsystem_precedes_alias :
    ¬ ((stepsBeforeAlias
          (Config.applyDefaultsT MetricsConfig.applyDefaults ManagerConfig.applyDefaults
            lokiOnlyExample).2).all (fun e => !isSubsystemApply e) = true) := by
  decide

/-- C5 (amended): within one resolver execution the steps are totally
ordered with the metrics subsystem's own default application first,
the alias mapping second, and the integrations subsystem's default
application third; the only subsystem routine preceding the alias
mapping is the metrics one, and the integrations routine never runs
before the alias mapping. -/
theorem applyDefaults_alias_order
    (promAD : MetricsConfig → Except String MetricsConfig)
    (integAD : MetricsConfig → ManagerConfig → Except String ManagerConfig)
    (c : Config) :
    ((Config.applyDefaultsT promAD integAD c).2.head? = some Ev.promDefaults)
  ∧ ((stepsBeforeAlias (Config.applyDefaultsT promAD integAD c).2).all
       (fun e => e == Ev.promDefaults) = true)
  ∧ ((Config.applyDefaultsT promAD integAD c).2.contains Ev.integrationsDefaults = true →
       (Config.applyDefaultsT promAD integAD c).2.take 3 =
         [Ev.promDefaults, Ev.aliasMapping, Ev.integrationsDefaults]) := by
  rcases applyDefaultsT_trace promAD integAD c with h | h | h | h <;>
    rw [h] <;> exact ⟨rfl, by decide, by decide⟩

/-- Witness for C5 (amended) at a concrete input: the run over the
loki-only configuration reaches the integrations routine, and its
first three steps are metrics defaults, alias mapping, integrations
defaults. -/
theorem applyDefaults_alias_order_witness :
    (Config.applyDefaultsT MetricsConfig.applyDefaults ManagerConfig.applyDefaults
      lokiOnlyExample).2.take 3 =
      [Ev.promDefaults, Ev.aliasMapping, Ev.integrationsDefaults] :=
  (applyDefaults_alias_order MetricsConfig.applyDefaults ManagerConfig.applyDefaults
    lokiOnlyExample).2.2 (by decide)

/-- C4: when both the legacy loki section and the current logs section
are populated, the resolver fails with the named migration-conflict
error (provided the metrics routine itself succeeded, since the source
runs it first); when only the legacy section is populated, a
successful resolution carries its whole content in the current slot,
clears the legacy slot, sets the deprecation-usage flag, and the first
named entry keeps its name. -/
theorem applyDefaults_alias_migration :
    (∀ (promAD : MetricsConfig → Except String MetricsConfig)
       (integAD : MetricsConfig → ManagerConfig → Except String ManagerConfig)
       (c : Config) (p : MetricsConfig),
       promAD c.prometheus = .ok p →
       c.logs.isSome = true → c.loki.isSome = true →
       Config.applyDefaultsWith promAD integAD c =
         .error "at most one of loki and logs should be specified")
  ∧ (∀ (promAD : MetricsConfig → Except String MetricsConfig)
       (integAD : MetricsConfig → ManagerConfig → Except String ManagerConfig)
       (c c' : Config) (l : LogsConfig),
       c.logs = none → c.loki = some l →
       Config.applyDefaultsWith promAD integAD c = .ok c' →
       c'.logs = some l ∧ c'.loki = none ∧ c'.usedDeprecatedLoki = true ∧
         c'.logs.bind (fun lc => lc.configs.head?.map LogsInstance.name) =
           l.configs.head?.map LogsInstance.name) := by
  constructor
  · intro promAD integAD c p hp hlogs hloki
    dsimp only [Config.applyDefaultsWith, Config.applyDefaultsT]
    rw [hp]
    simp [hlogs, hloki]
  · intro promAD integAD c c' l hlogs hloki h
    dsimp only [Config.applyDefaultsWith, Config.applyDefaultsT] at h
    split at h
    · simp at h
    · simp only [hlogs, hloki, Option.isSome_none, Option.isSome_some, Option.isNone_none,
        Bool.false_and, Bool.true_and, Bool.and_self, if_false, if_true,
        Bool.false_eq_true] at h
      split at h
      · simp at h
      · split at h
        · simp at h
        · simp only [Except.ok.injEq] at h
          subst h
          refine ⟨?_, ?_, ?_, ?_⟩ <;> dsimp only <;> (try split) <;> rfl

/-- Witness for C4 at concrete inputs: the both-populated
configuration fails with the named error, and the loki-only
configuration migrates foo into the current slot. -/
theorem applyDefaults_alias_migration_witness :
    (Config.applyDefaultsWith MetricsConfig.applyDefaults ManagerConfig.applyDefaults
       bothLogsExample = .error "at most one of loki and logs should be specified")
  ∧ ((okOr (Config.applyDefaultsWith MetricsConfig.applyDefaults ManagerConfig.applyDefaults
        lokiOnlyExample) DefaultConfig).logs = some { configs := [{ name := "foo" }] } ∧
     (okOr (Config.applyDefaultsWith MetricsConfig.applyDefaults ManagerConfig.applyDefaults
        lokiOnlyExample) DefaultConfig).loki = none ∧
     (okOr (Config.applyDefaultsWith MetricsConfig.applyDefaults ManagerConfig.applyDefaults
        lokiOnlyExample) DefaultConfig).usedDeprecatedLoki = true ∧
     ((okOr (Config.applyDefaultsWith MetricsConfig.applyDefaults ManagerConfig.applyDefaults
        lokiOnlyExample) DefaultConfig).logs.bind
          (fun lc => lc.configs.head?.map LogsInstance.name) =
        ({ configs := [{ name := "foo" }] } : LogsConfig).configs.head?.map
          LogsInstance.name)) :=
  ⟨applyDefaults_alias_migration.1 MetricsConfig.applyDefaults ManagerConfig.applyDefaults
     bothLogsExample bothLogsExample.prometheus rfl rfl rfl,
   applyDefaults_alias_migration.2 MetricsConfig.applyDefaults ManagerConfig.applyDefaults
     lokiOnlyExample
     (okOr (Config.applyDefaultsWith MetricsConfig.applyDefaults ManagerConfig.applyDefaults
        lokiOnlyExample) DefaultConfig)
     { configs := [{ name := "foo" }] } rfl rfl rfl⟩

/-- C6: on a successful resolver run, the integrations fallback
remote-write list receives the metrics subsystem's global remote-write
destinations exactly when the list the integrations routine produced
was empty; a non-empty list is kept as it is. -/
theorem applyDefaults_remote_write_cascade
    (promAD : MetricsConfig → Except String MetricsConfig)
    (integAD : MetricsConfig → ManagerConfig → Except String ManagerConfig)
    (c c' : Config) (p : MetricsConfig) (i : ManagerConfig)
    (hp : promAD c.prometheus = .ok p)
    (hi : integAD p c.integrations = .ok i)
    (h : Config.applyDefaultsWith promAD integAD c = .ok c') :
    (i.prometheusRemoteWrite = [] →
       c'.integrations.prometheusRemoteWrite = p.global.remoteWrite)
  ∧ (i.prometheusRemoteWrite ≠ [] →
       c'.integrations.prometheusRemoteWrite = i.prometheusRemoteWrite) := by
  dsimp only [Config.applyDefaultsWith, Config.applyDefaultsT] at h
  split at h
  · simp at h
  · next prom heqp =>
    rw [hp] at heqp
    injection heqp with hpe
    subst hpe
    split at h
    · simp at h
    · by_cases hmig : (c.logs.isNone && c.loki.isSome) = true
      · rw [if_pos hmig] at h
        split at h
        · simp at h
        · next ints heqi =>
          dsimp only at heqi
          rw [hi] at heqi
          injection heqi with hie
          subst hie
          split at h
          · simp at h
          · simp only [Except.ok.injEq] at h
            subst h
            constructor
            · intro hnil
              simp [hnil]
            · intro hne
              simp [List.length_eq_zero, hne]
      · rw [if_neg hmig] at h
        split at h
        · simp at h
        · next ints heqi =>
          dsimp only at heqi
          rw [hi] at heqi
          injection heqi with hie
          subst hie
          split at h
          · simp at h
          · simp only [Except.ok.injEq] at h
            subst h
            constructor
            · intro hnil
              simp [hnil]
            · intro hne
              simp [List.length_eq_zero, hne]

/-- Witness for C6 at a concrete input: the cascade example starts
with an empty integrations remote-write list and one metrics global
destination, and resolution copies that destination into the
integrations list. -/
theorem applyDefaults_remote_write_cascade_witness :
    (okOr (Config.applyDefaultsWith MetricsConfig.applyDefaults ManagerConfig.applyDefaults
       cascadeExample) DefaultConfig).integrations.prometheusRemoteWrite = ["rw1"] :=
  (applyDefaults_remote_write_cascade MetricsConfig.applyDefaults
    ManagerConfig.applyDefaults cascadeExample
    (okOr (Config.applyDefaultsWith MetricsConfig.applyDefaults ManagerConfig.applyDefaults
       cascadeExample) DefaultConfig)
    cascadeExample.prometheus cascadeExample.integrations rfl rfl rfl).1 rfl

/-- C9: after every successful resolver run, the integrations
subsystem's cascaded Prometheus global block equals the metrics
subsystem's resolved global block; this assignment is unconditional,
for every input tree and every pair of subsystem routines. -/
theorem applyDefaults_global_config_cascade
    (promAD : MetricsConfig → Except String MetricsConfig)
    (integAD : MetricsConfig → ManagerConfig → Except String ManagerConfig)
    (c c' : Config)
    (h : Config.applyDefaultsWith promAD integAD c = .ok c') :
    c'.integrations.prometheusGlobalConfig = c'.prometheus.global.prometheus := by
  dsimp only [Config.applyDefaultsWith, Config.applyDefaultsT] at h
  repeat' split at h
  all_goals simp at h
  all_goals subst h
  all_goals rfl

/-- Witness for C9 at a concrete input: the cascade example resolves
with the integrations global block equal to the metrics global block. -/
theorem applyDefaults_global_config_cascade_witness :
    (okOr (Config.applyDefaultsWith MetricsConfig.applyDefaults ManagerConfig.applyDefaults
       cascadeExample) DefaultConfig).integrations.prometheusGlobalConfig =
    (okOr (Config.applyDefaultsWith MetricsConfig.applyDefaults ManagerConfig.applyDefaults
       cascadeExample) DefaultConfig).prometheus.global.prometheus :=
  applyDefaults_global_config_cascade MetricsConfig.applyDefaults
    ManagerConfig.applyDefaults cascadeExample
    (okOr (Config.applyDefaultsWith MetricsConfig.applyDefaults ManagerConfig.applyDefaults
       cascadeExample) DefaultConfig) rfl

/-- C10: on a successful resolver run the deprecation-usage flag of the
result equals true exactly when the entry tree had the legacy slot
populated and the current slot empty, and otherwise keeps its entry
value; in particular the flag is never reset from true to false. -/
theorem applyDefaults_used_deprecated_loki
    (promAD : MetricsConfig → Except String MetricsConfig)
    (integAD : MetricsConfig → ManagerConfig → Except String ManagerConfig)
    (c c' : Config)
    (h : Config.applyDefaultsWith promAD integAD c = .ok c') :
    c'.usedDeprecatedLoki = (c.logs.isNone && c.loki.isSome || c.usedDeprecatedLoki)
  ∧ (c.usedDeprecatedLoki = true → c'.usedDeprecatedLoki = true) := by
  dsimp only [Config.applyDefaultsWith, Config.applyDefaultsT] at h
  split at h
  · simp at h
  · split at h
    · simp at h
    · by_cases hmig : (c.logs.isNone && c.loki.isSome) = true
      · rw [if_pos hmig] at h
        split at h
        · simp at h
        · split at h
          · simp at h
          · simp only [Except.ok.injEq] at h
            subst h
            constructor
            · dsimp only
              rw [hmig]
              split <;> rfl
            · intro _
              dsimp only
              split <;> rfl
      · rw [if_neg hmig] at h
        split at h
        · simp at h
        · split at h
          · simp at h
          · simp only [Except.ok.injEq] at h
            subst h
            have hm : (c.logs.isNone && c.loki.isSome) = false := by
              simpa using hmig
            constructor
            · dsimp only
              rw [hm]
              split <;> rfl
            · intro hu
              dsimp only
              split <;> exact hu

/-- Witness for C10 at a concrete input: the loki-only example enters
with the flag unset and the legacy slot populated, and resolves with
the flag set. -/
theorem applyDefaults_used_deprecated_loki_witness :
    (okOr (Config.applyDefaultsWith MetricsConfig.applyDefaults ManagerConfig.applyDefaults
       lokiOnlyExample) DefaultConfig).usedDeprecatedLoki =
      (lokiOnlyExample.logs.isNone && lokiOnlyExample.loki.isSome ||
        lokiOnlyExample.usedDeprecatedLoki) :=
  (applyDefaults_used_deprecated_loki MetricsConfig.applyDefaults
    ManagerConfig.applyDefaults lokiOnlyExample
    (okOr (Config.applyDefaultsWith MetricsConfig.applyDefaults ManagerConfig.applyDefaults
       lokiOnlyExample) DefaultConfig) rfl).1

/-- C7: every failure of the trace cross-reference check names a trace
instance that declares the logs backend and references a logs instance
missing from the resolved logs subsystem, and its message has exactly
the owner/target shape; concretely, loading the failing reference
document yields that error under the config-file wrapper, verbatim as
in the repository's test, while the same reference aimed at an
instance supplied only under the legacy loki section loads
successfully, because validation runs after alias migration. -/
theorem load_cross_reference_validation :
    (∀ (logs : Option LogsConfig) (ts : List TempoInstance) (e : String),
       validateTempoInstances logs ts = .error e →
       ∃ i al, i ∈ ts ∧ i.automaticLogging = some al ∧
         al.backend = "logs_instance" ∧
         logsHasConfig logs al.logsInstanceName = false ∧
         e = autoLoggingErr i.name al.logsInstanceName)
  ∧ (load argsPlain (bytesLoader noEnv (.node docFailRef)) =
       .err ("error in config file: failed to validate automatic_logging for tempo config default: specified logs config default not found in agent config"))
  ∧ ((load argsPlain (bytesLoader noEnv (.node docLegacyRef))).isOk = true) := by
  refine ⟨?_, rfl, rfl⟩
  intro logs ts
  induction ts with
  | nil =>
    intro e h
    simp [validateTempoInstances] at h
  | cons i rest ih =>
    intro e h
    simp only [validateTempoInstances] at h
    cases hal : i.automaticLogging with
    | none =>
      rw [hal] at h
      dsimp only at h
      rcases ih e h with ⟨j, al, hmem, h1, h2, h3, h4⟩
      exact ⟨j, al, List.mem_cons_of_mem _ hmem, h1, h2, h3, h4⟩
    | some al =>
      rw [hal] at h
      dsimp only at h
      by_cases hb : (al.backend == "logs_instance" &&
          !logsHasConfig logs al.logsInstanceName) = true
      · rw [if_pos hb] at h
        injection h with he
        rcases Bool.and_eq_true_iff.mp hb with ⟨hb1, hb2⟩
        exact ⟨i, al, List.mem_cons_self i rest, hal,
          beq_iff_eq.mp hb1, by simpa using hb2, he.symm⟩
      · rw [if_neg hb] at h
        rcases ih e h with ⟨j, al2, hmem, h1, h2, h3, h4⟩
        exact ⟨j, al2, List.mem_cons_of_mem _ hmem, h1, h2, h3, h4⟩

/-- Witness for C7 at a concrete input: one trace instance named
default referencing the missing logs instance default with no logs
subsystem resolved. -/
theorem load_cross_reference_validation_witness :
    ∃ i al,
      i ∈ [({ name := "default",
              automaticLogging := some { backend := "logs_instance",
                                         logsInstanceName := "default" } } : TempoInstance)] ∧
      i.automaticLogging = some al ∧ al.backend = "logs_instance" ∧
      logsHasConfig none al.logsInstanceName = false ∧
      autoLoggingErr "default" "default" = autoLoggingErr i.name al.logsInstanceName :=
  load_cross_reference_validation.1 none
    [{ name := "default",
       automaticLogging := some { backend := "logs_instance",
                                  logsInstanceName := "default" } }]
    (autoLoggingErr "default" "default") rfl

/-- C3: the strict decoder never produces a tree from a document with
a duplicate key at any schema-reachable nesting level or an
unrecognized key (every successfully decoded document satisfies the
strictness predicate), structurally malformed bytes always yield an
error from LoadBytes, and decoding the empty document produces exactly
the seeded defaults, so absent fields keep their default values;
concretely, the duplicate-key and unknown-key test documents are
rejected. -/
theorem loadBytes_strict_decoding :
    (∀ (render : List Piece → String) (v : DocVal) (c : Config),
       decodeConfig render v = .ok c → strictDoc v = true)
  ∧ (∀ (env : String → String) (msg : String) (expand : Bool) (c : Config),
       LoadBytes env (.malformed msg) expand c = .error msg)
  ∧ (∀ render : List Piece → String,
       decodeConfig render (.map []) = .ok seededDefaults)
  ∧ (LoadBytes noEnv (.node docDupKey) false DefaultConfig =
       .error "yaml: field already set in type config")
  ∧ (LoadBytes noEnv (.node docUnknownKey) false DefaultConfig =
       .error "yaml: field not found in type config") :=
  ⟨decodeConfig_strict, fun _ _ _ _ => rfl, fun _ => rfl, rfl, rfl⟩

/-- Witness for C3 at a concrete input: the basic test document
decodes successfully, so it satisfies the strictness predicate. -/
theorem loadBytes_strict_decoding_witness :
    strictDoc docBasic = true :=
  loadBytes_strict_decoding.1 renderRaw docBasic
    (okOr (decodeConfig renderRaw docBasic) DefaultConfig) rfl

theorem applyArgs_project (a : Args) (c : Config) :
    (applyArgs a c).prometheus.walDirectory =
      (match a.walDirectory with | some w => w | none => c.prometheus.walDirectory)
  ∧ (applyArgs a c).prometheus.global.prometheus = c.prometheus.global.prometheus
  ∧ (applyArgs a c).reloadAddress =
      (match a.reloadAddr with | some r => r | none => c.reloadAddress)
  ∧ (applyArgs a c).reloadPort =
      (match a.reloadPort with | some p => p | none => c.reloadPort) := by
  dsimp only [applyArgs]
  cases a.walDirectory <;> cases a.reloadAddr <;> cases a.reloadPort <;>
    exact ⟨rfl, rfl, rfl, rfl⟩

theorem ApplyDefaults_preserves (c c' : Config) (h : Config.ApplyDefaults c = .ok c') :
    c'.prometheus.walDirectory = c.prometheus.walDirectory
  ∧ c'.prometheus.global.prometheus = c.prometheus.global.prometheus
  ∧ c'.reloadAddress = c.reloadAddress
  ∧ c'.reloadPort = c.reloadPort := by
  dsimp only [Config.ApplyDefaults, Config.applyDefaultsWith, Config.applyDefaultsT,
    MetricsConfig.applyDefaults, ManagerConfig.applyDefaults] at h
  split at h
  · simp at h
  · split at h
    · simp at h
    · dsimp only at h
      simp only [Except.ok.injEq] at h
      subst h
      refine ⟨?_, ?_, ?_, ?_⟩ <;> dsimp only <;> (repeat' split) <;> rfl

theorem load_ok_elim (a : Args) (loader : String → Bool → Config → Except String Config)
    (c : Config) (h : load a loader = .ok c) :
    ∃ cMid, loader (a.configFile.getD "") (a.configExpandEnv.getD false)
        (applyArgs a (Config.registerFlags DefaultConfig)) = .ok cMid ∧
      Config.ApplyDefaults (applyArgs a cMid) = .ok c := by
  dsimp only [load] at h
  by_cases hv : (a.version.getD false) = true
  · rw [if_pos hv] at h
    exact LoadResult.noConfusion h
  · rw [if_neg hv] at h
    by_cases hf : (a.configFile.getD "" == "") = true
    · rw [if_pos hf] at h
      exact LoadResult.noConfusion h
    · rw [if_neg hf] at h
      split at h
      · exact LoadResult.noConfusion h
      · next cMid hMid =>
        split at h
        · exact LoadResult.noConfusion h
        · next c3 hAD =>
          injection h with he
          subst he
          exact ⟨cMid, hMid, hAD⟩

/-- C1: precedence law of resolution, on the tree a successful load
returns: a field supplied as an invocation argument holds the
argument's value whatever the document says (shown for the WAL
directory, settable by both, and for the reload address and port,
settable only by flag); a field set only in the document holds the
document's value (WAL directory with no flag, and the scrape timeout,
settable only by document); a field set by neither keeps the seeded
compiled-in default. -/
theorem load_precedence (a : Args) (env : String → String) (v : DocVal) (c : Config)
    (h : load a (bytesLoader env (.node v)) = .ok c) :
    (∀ w, a.walDirectory = some w → c.prometheus.walDirectory = w)
  ∧ (∀ s, a.walDirectory = none →
       docWalDirectory (renderScalar (a.configExpandEnv.getD false) env) v = some s →
       c.prometheus.walDirectory = s)
  ∧ (a.walDirectory = none →
       docWalDirectory (renderScalar (a.configExpandEnv.getD false) env) v = none →
       c.prometheus.walDirectory = seededDefaults.prometheus.walDirectory)
  ∧ (∀ s, docScrapeTimeout (renderScalar (a.configExpandEnv.getD false) env) v = some s →
       c.prometheus.global.prometheus.scrapeTimeout = s)
  ∧ (docScrapeTimeout (renderScalar (a.configExpandEnv.getD false) env) v = none →
       c.prometheus.global.prometheus.scrapeTimeout =
         seededDefaults.prometheus.global.prometheus.scrapeTimeout)
  ∧ (∀ r, a.reloadAddr = some r → c.reloadAddress = r)
  ∧ (a.reloadAddr = none → c.reloadAddress = seededDefaults.reloadAddress)
  ∧ (∀ p, a.reloadPort = some p → c.reloadPort = p)
  ∧ (a.reloadPort = none → c.reloadPort = seededDefaults.reloadPort) := by
  rcases load_ok_elim a _ c h with ⟨cMid, hMid, hAD⟩
  have hdec : decodeConfig (renderScalar (a.configExpandEnv.getD false) env) v =
      .ok cMid := hMid
  have hproj := decodeConfig_project _ v cMid hdec
  have hargs := applyArgs_project a cMid
  have hpres := ApplyDefaults_preserves (applyArgs a cMid) c hAD
  refine ⟨?_, ?_, ?_, ?_, ?_, ?_, ?_, ?_, ?_⟩
  · intro w hw
    rw [hpres.1, hargs.1, hw]
  · intro s hw hd
    rw [hpres.1, hargs.1, hw, hproj.1, hd]
    rfl
  · intro hw hd
    rw [hpres.1, hargs.1, hw, hproj.1, hd]
    rfl
  · intro s hd
    rw [hpres.2.1, hargs.2.1, hproj.2.1, hd]
    rfl
  · intro hd
    rw [hpres.2.1, hargs.2.1, hproj.2.1, hd]
    rfl
  · intro r hr
    rw [hpres.2.2.1, hargs.2.2.1, hr]
  · intro hr
    rw [hpres.2.2.1, hargs.2.2.1, hr, hproj.2.2.1]
  · intro p hp
    rw [hpres.2.2.2, hargs.2.2.2, hp]
  · intro hp
    rw [hpres.2.2.2, hargs.2.2.2, hp, hproj.2.2.2]

/-- Witness for C1 at concrete inputs: loading the basic document with
a WAL-directory flag yields the flag's value for the WAL directory,
the document's value for the scrape timeout, and the compiled flag
default for the reload address. -/
theorem load_precedence_witness :
    ((load argsWal (bytesLoader noEnv (.node docBasic))).getConfig
        DefaultConfig).prometheus.walDirectory = "/flag/wal"
  ∧ ((load argsWal (bytesLoader noEnv (.node docBasic))).getConfig
        DefaultConfig).prometheus.global.prometheus.scrapeTimeout = "33s"
  ∧ ((load argsWal (bytesLoader noEnv (.node docBasic))).getConfig
        DefaultConfig).reloadAddress = seededDefaults.reloadAddress :=
  ⟨(load_precedence argsWal noEnv docBasic
      ((load argsWal (bytesLoader noEnv (.node docBasic))).getConfig DefaultConfig)
      rfl).1 "/flag/wal" rfl,
   (load_precedence argsWal noEnv docBasic
      ((load argsWal (bytesLoader noEnv (.node docBasic))).getConfig DefaultConfig)
      rfl).2.2.2.1 "33s" rfl,
   (load_precedence argsWal noEnv docBasic
      ((load argsWal (bytesLoader noEnv (.node docBasic))).getConfig DefaultConfig)
      rfl).2.2.2.2.2.2.1 rfl⟩

end Agent
